import Mathlib

/-!
Shallow embedding of `scripts/catalog_format_converter/catalog_format_converter.py`
(the film-catalog format converter) and proofs about its behaviour.

Strings are modelled as Lean `String`s over their `List Char` data; Python's
`str.lower`, `str.strip`, `in`, `startswith`, `split(sep, 1)` and the concrete
regular expressions used by the converter are embedded as executable functions.
Regex semantics (leftmost match, alternatives tried in order, greedy/lazy
quantifiers with backtracking) are reproduced for the concrete patterns the
source uses; each embedding function notes the pattern it implements.
-/

namespace Exifizer

/-- Python whitespace characters, as matched by `str.strip()` and regex `\s`
(for the ASCII inputs this catalog uses). -/
def isPyWs (c : Char) : Bool :=
  c = ' ' || c = '\t' || c = '\n' || c = '\r' || c = '\x0b' || c = '\x0c'

/-- Python regex word character `\w` (ASCII fragment): letters, digits, underscore. -/
def isWordChar (c : Char) : Bool := c.isAlphanum || c = '_'

/-- Python `str.lower()` for the ASCII text in the catalog. -/
def lowerStr (s : String) : String := String.mk (s.data.map Char.toLower)

/-- Python `str.startswith` (on code points, like Lean's `String.startsWith`). -/
def startsWithStr (s pre : String) : Bool := pre.data.isPrefixOf s.data

/-- Strip Python whitespace from both ends of a character list (`str.strip()`). -/
def stripL (cs : List Char) : List Char :=
  ((cs.dropWhile isPyWs).reverse.dropWhile isPyWs).reverse

/-- Python `str.strip()`. -/
def pyStrip (s : String) : String := String.mk (stripL s.data)

/-- Python `str.strip(chars)`: remove any of the given characters from both ends. -/
def stripCharsL (cset : List Char) (cs : List Char) : List Char :=
  ((cs.dropWhile (fun c => cset.contains c)).reverse.dropWhile
      (fun c => cset.contains c)).reverse

/-- Python `str.rstrip(":")`. -/
def rstripColon (s : String) : String :=
  String.mk (s.data.reverse.dropWhile (fun c => c = ':')).reverse

/-- Python `str.rstrip("\n")` (applied per line after `splitlines`). -/
def pyRstripNl (s : String) : String :=
  String.mk (s.data.reverse.dropWhile (fun c => c = '\n')).reverse

/-- Substring test on character lists; Python's `needle in hay` (empty needle is `True`). -/
def isInfixL (needle : List Char) : List Char → Bool
  | [] => needle.isEmpty
  | c :: rest => needle.isPrefixOf (c :: rest) || isInfixL needle rest

/-- Python's `needle in hay` on strings. -/
def strContains (hay needle : String) : Bool := isInfixL needle.data hay.data

/-- Case-insensitive literal-prefix test: `pat` must be lowercase. -/
def ciPrefixL (pat cs : List Char) : Bool :=
  ((cs.take pat.length).map Char.toLower) == pat

/-- Python `s.split(sep, 1)` when `sep` occurs: the text before and after the
first occurrence of `sep`; `none` when `sep` does not occur. -/
def splitOnceL (sep : List Char) : List Char → Option (List Char × List Char)
  | [] => none
  | c :: rest =>
    if sep.isPrefixOf (c :: rest) then some ([], (c :: rest).drop sep.length)
    else (splitOnceL sep rest).map (fun p => (c :: p.1, p.2))

/-- Python `s.split(sep, 1)` on strings (`none` when `sep` is absent). -/
def splitOnce (s sep : String) : Option (String × String) :=
  (splitOnceL sep.data s.data).map (fun p => (String.mk p.1, String.mk p.2))

/-- The note-accumulation idiom used throughout the converter:
`f"{notes}; {frag}".strip("; ").strip() if notes else frag`. -/
def appendNoteIdiom (notes frag : String) : String :=
  if notes ≠ "" then
    String.mk (stripL (stripCharsL [';', ' '] (notes ++ "; " ++ frag).data))
  else frag

/-- Python `"\n".join`. -/
def joinWithNl : List String → String
  | [] => ""
  | [s] => s
  | s :: t :: rest => s ++ "\n" ++ joinWithNl (t :: rest)

/-- Python `" ".join`. -/
def joinWithSpace : List String → String
  | [] => ""
  | [s] => s
  | s :: t :: rest => s ++ " " ++ joinWithSpace (t :: rest)

/-- Split a character list at newline characters (`acc` is the reversed
current piece). -/
def splitNlAux (acc : List Char) : List Char → List (List Char)
  | [] => [acc.reverse]
  | c :: rest =>
    if c = '\n' then acc.reverse :: splitNlAux [] rest
    else splitNlAux (c :: acc) rest

/-- Python `str.splitlines()` for documents whose line breaks are `"\n"`:
split on newlines, without a trailing empty line for a trailing newline. -/
def pySplitlines (s : String) : List String :=
  let parts := (splitNlAux [] s.data).map String.mk
  if parts.getLast? = some "" then parts.dropLast else parts

/-- Regex word boundary `\b` before a word character, given the previous character. -/
def boundaryOk : Option Char → Bool
  | none => true
  | some c => !isWordChar c

/-- Regex word boundary `\b` after a word character: next char absent or non-word. -/
def afterNonWord : List Char → Bool
  | [] => true
  | c :: _ => !isWordChar c

/-- Maximal run of ASCII digits at the head of the list (`\d+`, greedy). -/
def digitRun (cs : List Char) : List Char := cs.takeWhile Char.isDigit

/-- KNOWN_CAMERAS from the source: the canonical camera list. -/
def KNOWN_CAMERAS : List String :=
  ["Nikon N80", "Minolta SR-T101 silver", "Minolta SR-T101 black",
   "Minolta X-700", "Halina 35X"]

/-- Search for `\bn80\b` in already-lowercased text (`_canonical_camera`). -/
def searchN80 (prev : Option Char) : List Char → Bool
  | [] => false
  | c :: rest =>
    (boundaryOk prev && ['n', '8', '0'].isPrefixOf (c :: rest)
      && afterNonWord ((c :: rest).drop 3))
    || searchN80 (some c) rest

/-- Embedding of `CatalogConverter._canonical_camera`. -/
def canonicalCamera (raw : String) : Option String :=
  if raw = "" then none
  else
    let text := pyStrip raw
    let low := lowerStr text
    match KNOWN_CAMERAS.find? (fun cam => lowerStr cam == low) with
    | some cam => some cam
    | none =>
      match KNOWN_CAMERAS.find? (fun cam => isInfixL (lowerStr cam).data low.data) with
      | some cam => some cam
      | none =>
        if searchN80 none low.data then some "Nikon N80"
        else if strContains low "x-700" || strContains low "x700" then
          some "Minolta X-700"
        else
          let srt101Hint :=
            (strContains low "sr" && strContains low "t101")
            || strContains low "srt-101" || strContains low "srt101"
            || strContains low "sr-t101"
          if strContains low "minolta" && srt101Hint then
            if strContains low "black" then some "Minolta SR-T101 black"
            else some "Minolta SR-T101 silver"
          else if strContains low "minolta" then some "Minolta SR-T101 silver"
          else if strContains low "halina" then some "Halina 35X"
          else none

/-- Embedding of `CatalogConverter._find_known_camera_in_text`. -/
def findKnownCameraInText (text : String) : Option String :=
  if text = "" then none
  else
    let low := lowerStr text
    match KNOWN_CAMERAS.find? (fun cam => isInfixL (lowerStr cam).data low.data) with
    | some cam => some cam
    | none => canonicalCamera text

/-- Tail of regex `\b\d{2,3}\s*mm\b` after the digits: `\s*` (greedy) then `mm` then `\b`. -/
def mmTail (cs : List Char) : Bool :=
  let rest := cs.dropWhile isPyWs
  ['m', 'm'].isPrefixOf rest && afterNonWord (rest.drop 2)

/-- Attempt of `\d{2,3}\s*mm\b` at one position (digits greedy, 3 then 2). -/
def mmAt (cs : List Char) : Bool :=
  let ds := digitRun cs
  (decide (3 ≤ ds.length) && mmTail (cs.drop 3))
  || (decide (2 ≤ ds.length) && mmTail (cs.drop 2))

/-- Search for `\b\d{2,3}\s*mm\b` in lowercased text. -/
def searchMm (prev : Option Char) : List Char → Bool
  | [] => false
  | c :: rest => (boundaryOk prev && mmAt (c :: rest)) || searchMm (some c) rest

/-- Attempt of `f\s*/?\s*\d+` at one position of lowercased text. -/
def fSlashAt : List Char → Bool
  | 'f' :: rest =>
    let r1 := rest.dropWhile isPyWs
    let r2 := match r1 with
      | '/' :: t => t.dropWhile isPyWs
      | _ => r1
    match r2 with
    | c :: _ => c.isDigit
    | [] => false
  | _ => false

/-- Search for `\bf\s*/?\s*\d+` in lowercased text. -/
def searchFSlash (prev : Option Char) : List Char → Bool
  | [] => false
  | c :: rest => (boundaryOk prev && fSlashAt (c :: rest)) || searchFSlash (some c) rest

/-- Attempt of `f\d+` at one position of lowercased text. -/
def fDigitAt : List Char → Bool
  | 'f' :: c :: _ => c.isDigit
  | _ => false

/-- Search for `\bf\d+(\.\d+)?` in lowercased text (the optional decimal part
never affects whether a match exists). -/
def searchFDigit (prev : Option Char) : List Char → Bool
  | [] => false
  | c :: rest => (boundaryOk prev && fDigitAt (c :: rest)) || searchFDigit (some c) rest

/-- Embedding of `CatalogConverter._looks_like_lens`. -/
def looksLikeLens (text : String) : Bool :=
  if text = "" then false
  else
    let low := lowerStr text
    if strContains low "lens" then true
    else if strContains low "fisheye" || strContains low "teleconverter"
        || strContains low "pancake" then true
    else if searchMm none low.data then true
    else if searchFSlash none low.data then true
    else if searchFDigit none low.data then true
    else false

/-- Alternation `(?:around|at|in)` (case-insensitive, tried in this order) at the
head of the list; returns the tail after the matched word. The three literals
are pairwise prefix-disjoint, so first-prefix order equals regex order. -/
def locPrefixTail (cs : List Char) : Option (List Char) :=
  if ciPrefixL ['a', 'r', 'o', 'u', 'n', 'd'] cs then some (cs.drop 6)
  else if ciPrefixL ['a', 't'] cs then some (cs.drop 2)
  else if ciPrefixL ['i', 'n'] cs then some (cs.drop 2)
  else none

/-- Embedding of `CatalogConverter._is_location_phrase`:
`re.match(r"^\s*(?:around|at|in)\b", text.strip(), re.IGNORECASE)`. -/
def isLocationPhrase (text : String) : Bool :=
  if text = "" then false
  else
    match locPrefixTail (pyStrip text).data with
    | some tail => afterNonWord tail
    | none => false

/-- Regex date separator class (slash or dash), written [sep] in comments here. -/
def isDateSep (c : Char) : Bool := c = '/' || c = '-'

/-- Alternative 1 of `date_pattern`: `\d{1,2}[sep]\d{1,2}[sep]\d{2,4}` at one position.
Greedy `\d{1,2}` before a separator can only take the whole digit run (a shorter
take leaves a digit where the separator must be), so the run length must be 1 or 2;
the final `\d{2,4}` has no following constraint, so it greedily takes up to 4. -/
def dateAlt1 (cs : List Char) : Option (List Char) :=
  let r1 := digitRun cs
  if 1 ≤ r1.length && r1.length ≤ 2 then
    match cs.drop r1.length with
    | s1 :: t1 =>
      if isDateSep s1 then
        let r2 := digitRun t1
        if 1 ≤ r2.length && r2.length ≤ 2 then
          match t1.drop r2.length with
          | s2 :: t2 =>
            if isDateSep s2 then
              let r3 := digitRun t2
              if 2 ≤ r3.length then some (r1 ++ s1 :: (r2 ++ s2 :: r3.take 4))
              else none
            else none
          | [] => none
        else none
      else none
    | [] => none
  else none

/-- Alternative 2 of `date_pattern`: `\d{4}-\d{1,2}-\d{1,2}` at one position. -/
def dateAlt2 (cs : List Char) : Option (List Char) :=
  let r1 := digitRun cs
  if 4 ≤ r1.length then
    match cs.drop 4 with
    | '-' :: t1 =>
      let r2 := digitRun t1
      if 1 ≤ r2.length && r2.length ≤ 2 then
        match t1.drop r2.length with
        | '-' :: t2 =>
          let r3 := digitRun t2
          if 1 ≤ r3.length then some (r1.take 4 ++ '-' :: (r2 ++ '-' :: r3.take 2))
          else none
        | _ => none
      else none
    | _ => none
  else none

/-- The twelve three-letter month abbreviations of `date_pattern`, lowercase.
They are pairwise distinct, so at most one matches at a given position. -/
def monthAbbrevs : List (List Char) :=
  [['j','a','n'], ['f','e','b'], ['m','a','r'], ['a','p','r'], ['m','a','y'],
   ['j','u','n'], ['j','u','l'], ['a','u','g'], ['s','e','p'], ['o','c','t'],
   ['n','o','v'], ['d','e','c']]

/-- `(?:Jan|Feb|...|Dec)` (case-insensitive) at the head of the list. -/
def monthAbbrevHere (cs : List Char) : Bool :=
  monthAbbrevs.any (fun m => ciPrefixL m cs)

/-- Alternative 3 of `date_pattern`:
`(?:Jan|...|Dec)[a-z]*\s+\d{1,2},?\s+\d{2,4}` at one position (IGNORECASE makes
`[a-z]*` match letters of either case; it greedily takes the whole letter run). -/
def dateAlt3 (cs : List Char) : Option (List Char) :=
  if monthAbbrevHere cs then
    let letters := (cs.drop 3).takeWhile Char.isAlpha
    let afterL := (cs.drop 3).drop letters.length
    let ws1 := afterL.takeWhile isPyWs
    if ws1.isEmpty then none
    else
      let r2start := afterL.drop ws1.length
      let d := digitRun r2start
      if 1 ≤ d.length && d.length ≤ 2 then
        let afterD := r2start.drop d.length
        let commaTaken := match afterD with
          | ',' :: _ => true
          | _ => false
        let afterC := if commaTaken then afterD.drop 1 else afterD
        let ws2 := afterC.takeWhile isPyWs
        if ws2.isEmpty then none
        else
          let y := digitRun (afterC.drop ws2.length)
          if 2 ≤ y.length then
            some (cs.take 3 ++ letters ++ ws1 ++ d
                  ++ (if commaTaken then [','] else []) ++ ws2 ++ y.take 4)
          else none
      else none
  else none

/-- Alternative 4 of `date_pattern`:
`\d{1,2}\s+(?:Jan|...|Dec)[a-z]*\s+\d{2,4}` at one position. -/
def dateAlt4 (cs : List Char) : Option (List Char) :=
  let d := digitRun cs
  if 1 ≤ d.length && d.length ≤ 2 then
    let afterD := cs.drop d.length
    let ws1 := afterD.takeWhile isPyWs
    if ws1.isEmpty then none
    else
      let r2 := afterD.drop ws1.length
      if monthAbbrevHere r2 then
        let letters := (r2.drop 3).takeWhile Char.isAlpha
        let afterL := (r2.drop 3).drop letters.length
        let ws2 := afterL.takeWhile isPyWs
        if ws2.isEmpty then none
        else
          let y := digitRun (afterL.drop ws2.length)
          if 2 ≤ y.length then
            some (d ++ ws1 ++ r2.take 3 ++ letters ++ ws2 ++ y.take 4)
          else none
      else none
  else none

/-- Leftmost-match scan for `date_pattern`: positions left to right, the four
alternatives in pattern order at each position. -/
def dateSearchL : List Char → Option (List Char)
  | [] => none
  | c :: rest =>
    match dateAlt1 (c :: rest) with
    | some m => some m
    | none =>
      match dateAlt2 (c :: rest) with
      | some m => some m
      | none =>
        match dateAlt3 (c :: rest) with
        | some m => some m
        | none =>
          match dateAlt4 (c :: rest) with
          | some m => some m
          | none => dateSearchL rest

/-- `self.date_pattern.search(s)`, returning group 1 (the whole match). -/
def datePatternSearch (s : String) : Option String :=
  (dateSearchL s.data).map String.mk

/-- Value of a decimal-digit string, Python `int` on digit-only text. -/
def pyIntDigits (cs : List Char) : Nat :=
  cs.foldl (fun acc c => acc * 10 + (c.toNat - 48)) 0

/-- Python format `{n:02d}` for the month/day numbers (always below 100 here). -/
def pad2 (n : Nat) : String := if n < 10 then "0" ++ toString n else toString n

/-- The `month_map` dictionary of `normalize_date`. -/
def monthMap (m : String) : Option String :=
  match m with
  | "jan" => some "01" | "january" => some "01"
  | "feb" => some "02" | "february" => some "02"
  | "mar" => some "03" | "march" => some "03"
  | "apr" => some "04" | "april" => some "04"
  | "may" => some "05"
  | "jun" => some "06" | "june" => some "06"
  | "jul" => some "07" | "july" => some "07"
  | "aug" => some "08" | "august" => some "08"
  | "sep" => some "09" | "sept" => some "09" | "september" => some "09"
  | "oct" => some "10" | "october" => some "10"
  | "nov" => some "11" | "november" => some "11"
  | "dec" => some "12" | "december" => some "12"
  | _ => none

/-- Attempt of `likely\s+(\d{4})` (case-insensitive) at one position. -/
def likelyAt (cs : List Char) : Option (List Char) :=
  if ciPrefixL ['l','i','k','e','l','y'] cs then
    let r := cs.drop 6
    let ws := r.takeWhile isPyWs
    if ws.isEmpty then none
    else
      let d := digitRun (r.drop ws.length)
      if 4 ≤ d.length then some (d.take 4) else none
  else none

/-- `re.search(r"likely\s+(\d{4})", ds, re.IGNORECASE)`, group 1. -/
def likelySearch : List Char → Option (List Char)
  | [] => none
  | c :: rest =>
    match likelyAt (c :: rest) with
    | some y => some y
    | none => likelySearch rest

/-- Optional `:` then `\s*` after a matched keyword prefix. -/
def dropColonWs (cs : List Char) : List Char :=
  (match cs with
   | ':' :: t => t
   | r => r).dropWhile isPyWs

/-- `re.sub(r"^(?:expiration|expires):?\s*", "", ds, flags=re.IGNORECASE)`:
remove the prefix (first alternative first) when present. -/
def stripExpiryKeyword (cs : List Char) : List Char :=
  if ciPrefixL ['e','x','p','i','r','a','t','i','o','n'] cs then dropColonWs (cs.drop 10)
  else if ciPrefixL ['e','x','p','i','r','e','s'] cs then dropColonWs (cs.drop 7)
  else cs

/-- Anchored `re.match(r"(\d{4})-(\d{1,2})-(\d{1,2})$", s)`: groups (y, mo, d). -/
def matchYMD (cs : List Char) : Option (List Char × List Char × List Char) :=
  let y := digitRun cs
  if 4 ≤ y.length then
    match cs.drop 4 with
    | '-' :: t1 =>
      let mo := digitRun t1
      if 1 ≤ mo.length && mo.length ≤ 2 then
        match t1.drop mo.length with
        | '-' :: t2 =>
          let d := digitRun t2
          if 1 ≤ d.length && d.length ≤ 2 && (t2.drop d.length).isEmpty then
            some (y.take 4, mo, d)
          else none
        | _ => none
      else none
    | _ => none
  else none

/-- Anchored `re.match(r"(\d{1,2})[sep](\d{1,2})[sep](\d{2,4})$", s)`: groups (mo, d, y). -/
def matchMDY (cs : List Char) : Option (List Char × List Char × List Char) :=
  let mo := digitRun cs
  if 1 ≤ mo.length && mo.length ≤ 2 then
    match cs.drop mo.length with
    | s1 :: t1 =>
      if isDateSep s1 then
        let d := digitRun t1
        if 1 ≤ d.length && d.length ≤ 2 then
          match t1.drop d.length with
          | s2 :: t2 =>
            if isDateSep s2 then
              let y := digitRun t2
              if 2 ≤ y.length && y.length ≤ 4 && (t2.drop y.length).isEmpty then
                some (mo, d, y)
              else none
            else none
          | [] => none
        else none
      else none
    | [] => none
  else none

/-- Anchored `re.match(r"^(\d{1,2})[sep](\d{2,4})$", s)`: groups (mo, y). -/
def matchMY (cs : List Char) : Option (List Char × List Char) :=
  let mo := digitRun cs
  if 1 ≤ mo.length && mo.length ≤ 2 then
    match cs.drop mo.length with
    | s1 :: t1 =>
      if isDateSep s1 then
        let y := digitRun t1
        if 2 ≤ y.length && y.length ≤ 4 && (t1.drop y.length).isEmpty then
          some (mo, y)
        else none
      else none
    | [] => none
  else none

/-- Anchored `re.match(r"([A-Za-z]+)\s+(\d{1,2}),?\s+(\d{2,4})$", s)`:
groups (month word, day, year). -/
def matchMonDY (cs : List Char) : Option (List Char × List Char × List Char) :=
  let mon := cs.takeWhile Char.isAlpha
  if mon.isEmpty then none
  else
    let afterM := cs.drop mon.length
    let ws1 := afterM.takeWhile isPyWs
    if ws1.isEmpty then none
    else
      let t1 := afterM.drop ws1.length
      let d := digitRun t1
      if 1 ≤ d.length && d.length ≤ 2 then
        let afterD := t1.drop d.length
        let afterC := match afterD with
          | ',' :: t => t
          | r => r
        let ws2 := afterC.takeWhile isPyWs
        if ws2.isEmpty then none
        else
          let t2 := afterC.drop ws2.length
          let y := digitRun t2
          if 2 ≤ y.length && y.length ≤ 4 && (t2.drop y.length).isEmpty then
            some (mon, d, y)
          else none
      else none

/-- Anchored `re.match(r"(\d{1,2})\s+([A-Za-z]+)\s+(\d{2,4})$", s)`:
groups (day, month word, year). -/
def matchDMonY (cs : List Char) : Option (List Char × List Char × List Char) :=
  let d := digitRun cs
  if 1 ≤ d.length && d.length ≤ 2 then
    let afterD := cs.drop d.length
    let ws1 := afterD.takeWhile isPyWs
    if ws1.isEmpty then none
    else
      let t1 := afterD.drop ws1.length
      let mon := t1.takeWhile Char.isAlpha
      if mon.isEmpty then none
      else
        let afterM := t1.drop mon.length
        let ws2 := afterM.takeWhile isPyWs
        if ws2.isEmpty then none
        else
          let t2 := afterM.drop ws2.length
          let y := digitRun t2
          if 2 ≤ y.length && y.length ≤ 4 && (t2.drop y.length).isEmpty then
            some (d, mon, y)
          else none
  else none

/-- Two-digit-year expansion written inline (four times) in `normalize_date`:
`y = f"20{y}" if int(y) <= 30 else f"19{y}"` when `len(y) == 2`, else `y` unchanged. -/
def expandYear (y : List Char) : String :=
  if y.length = 2 then
    if pyIntDigits y ≤ 30 then "20" ++ String.mk y else "19" ++ String.mk y
  else String.mk y

/-- Embedding of `CatalogConverter.normalize_date`. -/
def normalizeDate (date_str : String) : String :=
  if date_str = "" then ""
  else
    let ds := pyStrip date_str
    let dslow := lowerStr ds
    if strContains dslow "unknown" then
      match likelySearch ds.data with
      | some y => "Unknown, likely " ++ String.mk y
      | none => "Unknown"
    else
      let ds_clean := pyStrip (String.mk (stripExpiryKeyword ds.data))
      match matchYMD ds_clean.data with
      | some (y, mo, d) =>
        String.mk y ++ "-" ++ pad2 (pyIntDigits mo) ++ "-" ++ pad2 (pyIntDigits d)
      | none =>
        match matchMDY ds_clean.data with
        | some (mo, d, y) =>
          expandYear y ++ "-" ++ pad2 (pyIntDigits mo) ++ "-" ++ pad2 (pyIntDigits d)
        | none =>
          match matchMY ds_clean.data with
          | some (mo, y) => expandYear y ++ "-" ++ pad2 (pyIntDigits mo) ++ "-01"
          | none =>
            let monDY : Option String :=
              match matchMonDY ds_clean.data with
              | some (mon, d, y) =>
                (monthMap (lowerStr (String.mk mon))).map
                  (fun mn => expandYear y ++ "-" ++ mn ++ "-" ++ pad2 (pyIntDigits d))
              | none => none
            match monDY with
            | some r => r
            | none =>
              let dMonY : Option String :=
                match matchDMonY ds_clean.data with
                | some (d, mon, y) =>
                  (monthMap (lowerStr (String.mk mon))).map
                    (fun mn => expandYear y ++ "-" ++ mn ++ "-" ++ pad2 (pyIntDigits d))
                | none => none
              match dMonY with
              | some r => r
              | none => ds

/-- The `FilmEntry` dataclass: one film roll's metadata, empty strings for
undetermined fields. -/
structure FilmEntry where
  filmstock : String := ""
  iso : String := ""
  exposures : String := ""
  expiration : String := ""
  loaded_date : String := ""
  camera : String := ""
  lens : String := ""
  filter : String := ""
  notes : String := ""
  subject : String := ""
  shot_location : String := ""
  ready_date : String := ""
  developed_date : String := ""
  developed_location : String := ""
  roll_num : String := ""
  quantity : String := ""
deriving DecidableEq, Repr

/-- The helper `or_default` of `FilmEntry.to_markdown`:
`value if value.strip() else "None"`. -/
def orDefault (value : String) : String :=
  if pyStrip value = "" then "None" else value

/-- The Filmstock display of `to_markdown`:
`" ".join(s for s in [quantity.strip(), filmstock.strip()] if s).strip()`,
with `"None"` when empty. -/
def filmstockDisplay (e : FilmEntry) : String :=
  let joined :=
    pyStrip (joinWithSpace (([pyStrip e.quantity, pyStrip e.filmstock]).filter
      (fun s => s ≠ "")))
  if joined = "" then "None" else joined

/-- The list of output lines built by `FilmEntry.to_markdown` (the source builds
exactly this `lines` list and joins it with newlines). -/
def FilmEntry.toMarkdownLines (e : FilmEntry) : List String :=
  let developed_location_val :=
    if pyStrip e.developed_location = "" then "Citizens PDX"
    else pyStrip e.developed_location
  ["- Filmstock: " ++ filmstockDisplay e,
   "    - ISO: " ++ orDefault e.iso,
   "    - Exposures: " ++ orDefault e.exposures,
   "    - Expiration: " ++ orDefault e.expiration,
   "    - Loaded Date: " ++ orDefault e.loaded_date,
   "    - Camera: " ++ orDefault e.camera,
   "    - Lens: " ++ orDefault e.lens,
   "    - Filter: " ++ orDefault e.filter,
   "    - Notes: " ++ orDefault e.notes,
   "    - Subject: " ++ orDefault e.subject,
   "    - Shot Location: " ++ orDefault e.shot_location,
   "    - Ready for Development Date: " ++ orDefault e.ready_date,
   "    - Developed Date: " ++ orDefault e.developed_date,
   "    - Developed Location: " ++ developed_location_val,
   "    - RollNum: " ++ orDefault e.roll_num]

/-- Embedding of `FilmEntry.to_markdown`. -/
def FilmEntry.toMarkdown (e : FilmEntry) : String :=
  joinWithNl e.toMarkdownLines

/-- Step 1 of `_finalize_entry`: a location phrase stored in `camera` moves to
`shot_location` (when unset) with a traceability note. -/
def finalizeLocationStep (e : FilmEntry) : FilmEntry :=
  if e.camera ≠ "" && isLocationPhrase e.camera then
    let raw := e.camera
    let e1 : FilmEntry :=
      { e with camera := "",
               notes := appendNoteIdiom e.notes ("Camera (raw -> location): " ++ raw) }
    { e1 with shot_location := if e1.shot_location = "" then raw else e1.shot_location }
  else e

/-- Step 2 of `_finalize_entry`: a known camera found inside `lens` moves to
`camera`; the lens text is kept only when it also looks like a lens. -/
def finalizeLensStep (e : FilmEntry) : FilmEntry :=
  if e.lens ≠ "" then
    match findKnownCameraInText e.lens with
    | some cam_in_lens =>
      let e1 : FilmEntry := { e with camera := cam_in_lens }
      if !looksLikeLens e.lens then
        { e1 with
          notes := appendNoteIdiom e1.notes ("Lens (raw contained camera): " ++ e.lens),
          lens := "" }
      else e1
    | none => e
  else e

/-- Step 3 of `_finalize_entry`: canonicalize/validate `camera`, falling back to
a scan of `notes` and finally to "Unknown". -/
def finalizeCameraStep (e : FilmEntry) : FilmEntry :=
  if e.camera ≠ "" then
    match canonicalCamera e.camera with
    | none =>
      { e with notes := appendNoteIdiom e.notes ("Camera (raw): " ++ e.camera),
               camera := "Unknown" }
    | some canon => { e with camera := canon }
  else
    match (if e.notes ≠ "" then findKnownCameraInText e.notes else none) with
    | some cam_from_notes => { e with camera := cam_from_notes }
    | none => { e with camera := "Unknown" }

/-- Embedding of `CatalogConverter._finalize_entry` (the three passes in source
order). -/
def finalizeEntry (e : FilmEntry) : FilmEntry :=
  finalizeCameraStep (finalizeLensStep (finalizeLocationStep e))

/-- Attempt of `\b(\d+)\s+exposure(s)?\b` at one position (IGNORECASE); returns
group 1 (the digits). Greedy `\d+` before `\s+` can only take the whole run. -/
def exposureAt (cs : List Char) : Option String :=
  let ds := digitRun cs
  if ds.isEmpty then none
  else
    let r1 := cs.drop ds.length
    let ws := r1.takeWhile isPyWs
    if ws.isEmpty then none
    else
      let r2 := r1.drop ws.length
      if ciPrefixL ['e','x','p','o','s','u','r','e'] r2 then
        let r3 := r2.drop 8
        match r3 with
        | [] => some (String.mk ds)
        | c :: r4 =>
          if c.toLower = 's' then
            if afterNonWord r4 then some (String.mk ds) else none
          else if !isWordChar c then some (String.mk ds)
          else none
      else none

/-- Search for `\b(\d+)\s+exposure(s)?\b` (IGNORECASE), leftmost match. -/
def searchExposure (prev : Option Char) : List Char → Option String
  | [] => none
  | c :: rest =>
    match (if boundaryOk prev then exposureAt (c :: rest) else none) with
    | some n => some n
    | none => searchExposure (some c) rest

/-- Tail of the location / with searches: `\s+(?P<g>.+)$` after the keyword.
Matches when a whitespace head and at least one further character remain; the
group, after the caller's `.strip()`, equals the stripped remainder. -/
def wsGroupTail (tail : List Char) : Option String :=
  match tail with
  | c :: rest => if isPyWs c && !rest.isEmpty then some (String.mk (stripL tail)) else none
  | [] => none

/-- Attempt of `(?:around|at|in)\s+(?P<loc>.+)$` (IGNORECASE) at one position,
returning the stripped `loc` group. -/
def locAt (cs : List Char) : Option String :=
  match locPrefixTail cs with
  | some tail => wsGroupTail tail
  | none => none

/-- Search for `\b(?:around|at|in)\s+(?P<loc>.+)$` (IGNORECASE), leftmost. -/
def searchLoc (prev : Option Char) : List Char → Option String
  | [] => none
  | c :: rest =>
    match (if boundaryOk prev then locAt (c :: rest) else none) with
    | some s => some s
    | none => searchLoc (some c) rest

/-- Attempt of `with\s+(?P<with>.+)$` (IGNORECASE) at one position. -/
def withAt (cs : List Char) : Option String :=
  if ciPrefixL ['w','i','t','h'] cs then wsGroupTail (cs.drop 4) else none

/-- Search for `\bwith\s+(?P<with>.+)$` (IGNORECASE), leftmost. -/
def searchWith (prev : Option Char) : List Char → Option String
  | [] => none
  | c :: rest =>
    match (if boundaryOk prev then withAt (c :: rest) else none) with
    | some s => some s
    | none => searchWith (some c) rest

/-- The raw expiration value in `_parse_old_sub_entry`'s expiration branch:
`re.sub(r"^expiration:?\s*", "", content, re.IGNORECASE).strip()`. -/
def stripExpirationOnly (cs : List Char) : List Char :=
  if ciPrefixL ['e','x','p','i','r','a','t','i','o','n'] cs then dropColonWs (cs.drop 10)
  else cs

/-- The raw value of the old-dialect expiration branch (Python local `raw_val`). -/
def expirationRawVal (content lcl : String) : String :=
  if startsWithStr lcl "expires" then
    match splitOnce content " " with
    | some p => pyStrip p.2
    | none => ""
  else pyStrip (String.mk (stripExpirationOnly content.data))

/-- The old-dialect expiration branch applied to its raw value. -/
def expirationBranch (raw_val : String) (entry : FilmEntry) : FilmEntry :=
  if raw_val = "" || strContains (lowerStr raw_val) "unknown" then
    { entry with notes := (appendNoteIdiom entry.notes
        ("Expiration info: " ++ (if raw_val = "" then "Unknown" else raw_val))) }
  else { entry with expiration := normalizeDate raw_val }

/-- Date extraction of the old-dialect `loaded` branch (Python local `e1`). -/
def loadedDateStep (loaded_text : String) (entry : FilmEntry) : FilmEntry :=
  match datePatternSearch loaded_text with
  | some d => { entry with loaded_date := normalizeDate d }
  | none => entry

/-- Camera/lens or "on DATE" extraction of the `loaded` branch, applied after
the date step. -/
def loadedCameraStep (loaded_text : String) (e1 : FilmEntry) : FilmEntry :=
  match splitOnce loaded_text " in " with
  | some p =>
    (match splitOnce p.2 " with " with
     | some q => { e1 with camera := pyStrip q.1, lens := pyStrip q.2 }
     | none => { e1 with camera := pyStrip p.2 })
  | none =>
    match splitOnce loaded_text "on " with
    | some p =>
      (match datePatternSearch p.2 with
       | some d2 => { e1 with loaded_date := normalizeDate d2 }
       | none => e1)
    | none => e1

/-- The old-dialect `loaded` branch (date step, then camera/lens step). -/
def loadedBranch (loaded_text : String) (entry : FilmEntry) : FilmEntry :=
  loadedCameraStep loaded_text (loadedDateStep loaded_text entry)

/-- Location extraction of the old-dialect `shot` branch (first mutation). -/
def shotLocStep (shot_text : String) (entry : FilmEntry) : FilmEntry :=
  match searchLoc none shot_text.data with
  | some loc => { entry with shot_location := loc }
  | none => entry

/-- The "with ..." inspection of the `shot` branch (second mutation, Python
local `e1` to the state after it). -/
def shotWithStep (content shot_text : String) (e1 : FilmEntry) : FilmEntry :=
  match searchWith none shot_text.data with
  | some with_val =>
    (match findKnownCameraInText with_val with
     | some cam_found => { e1 with camera := cam_found }
     | none =>
       if looksLikeLens with_val then { e1 with lens := with_val }
       else { e1 with notes := appendNoteIdiom e1.notes content })
  | none =>
    match findKnownCameraInText shot_text with
    | some cam_found => { e1 with camera := cam_found }
    | none => e1

/-- The notes fallback of the `shot` branch when nothing was extracted. -/
def shotFallback (content : String) (e2 : FilmEntry) : FilmEntry :=
  if e2.shot_location = "" && e2.camera = "" && e2.lens = "" then
    { e2 with notes := appendNoteIdiom e2.notes content }
  else e2

/-- The old-dialect `shot` branch: location, "with" inspection, fallback. -/
def shotBranch (content shot_text : String) (entry : FilmEntry) : FilmEntry :=
  shotFallback content (shotWithStep content shot_text (shotLocStep shot_text entry))

/-- Date extraction of the old-dialect `developed` branch. -/
def developedDateStep (dev_text : String) (entry : FilmEntry) : FilmEntry :=
  match datePatternSearch dev_text with
  | some d => { entry with developed_date := normalizeDate d }
  | none => entry

/-- The old-dialect `developed DATE at LOCATION` branch. -/
def developedBranch (dev_text : String) (entry : FilmEntry) : FilmEntry :=
  match splitOnce dev_text " at " with
  | some p => { developedDateStep dev_text entry with developed_location := pyStrip p.2 }
  | none => developedDateStep dev_text entry

/-- Embedding of the body of `CatalogConverter._parse_old_sub_entry`, taking the
de-prefixed stripped content and its lowercase form (Python locals `content` and
`lcl`) as parameters. -/
def parseOldSubEntryCore (content lcl : String) (entry : FilmEntry) : FilmEntry :=
  if startsWithStr lcl "iso " then
    { entry with iso := pyStrip (String.mk (content.data.drop 4)) }
  else
    match searchExposure none content.data with
    | some n => { entry with exposures := n }
    | none =>
      if strContains lcl "expiration" || startsWithStr lcl "expires" then
        expirationBranch (expirationRawVal content lcl) entry
      else if startsWithStr lcl "loaded " then
        loadedBranch (pyStrip (String.mk (content.data.drop 7))) entry
      else if startsWithStr lcl "shot on " then
        { entry with camera := pyStrip (String.mk (content.data.drop 8)) }
      else if startsWithStr lcl "shot " then
        shotBranch content (pyStrip (String.mk (content.data.drop 5))) entry
      else if strContains lcl "ready" then
        match datePatternSearch content with
        | some d => { entry with ready_date := normalizeDate d }
        | none => { entry with notes := appendNoteIdiom entry.notes content }
      else if startsWithStr lcl "developed " then
        developedBranch (pyStrip (String.mk (content.data.drop 10))) entry
      else if startsWithStr lcl "roll " then
        { entry with roll_num := pyStrip (String.mk (content.data.drop 5)) }
      else if startsWithStr lcl "at " || startsWithStr lcl "around " || startsWithStr lcl "in " then
        { entry with shot_location := pyStrip content }
      else if startsWithStr lcl "subject" then
        { entry with subject :=
            match splitOnce content ":" with
            | some p => pyStrip p.2
            | none => pyStrip (String.mk (content.data.drop 7)) }
      else if startsWithStr lcl "filter" then
        { entry with filter :=
            match splitOnce content ":" with
            | some p => pyStrip p.2
            | none => pyStrip (String.mk (content.data.drop 6)) }
      else if startsWithStr lcl "notes" then
        { entry with notes := (appendNoteIdiom entry.notes
            (match splitOnce content ":" with
             | some p => pyStrip p.2
             | none => pyStrip (String.mk (content.data.drop 5)))) }
      else
        { entry with notes := appendNoteIdiom entry.notes content }

/-- Embedding of `CatalogConverter._parse_old_sub_entry` (the per-line result;
the source mutates `entry` in place and never raises on these total functions). -/
def parseOldSubEntry (line : String) (entry : FilmEntry) : FilmEntry :=
  parseOldSubEntryCore (pyStrip (String.mk (line.data.drop 6)))
    (lowerStr (pyStrip (String.mk (line.data.drop 6)))) entry

/-- The `note_append` helper of `_parse_new_sub_entry`: skip empty values,
otherwise append `"{prefix}: {v}"` to notes. -/
def noteAppendKV (e : FilmEntry) (prefixKey v : String) : FilmEntry :=
  if v = "" then e
  else { e with notes := appendNoteIdiom e.notes (prefixKey ++ ": " ++ v) }

/-- First run of digits anywhere in the list: `re.search(r"\d+", val)`. -/
def digitSearch : List Char → Option (List Char)
  | [] => none
  | c :: rest => if c.isDigit then some (digitRun (c :: rest)) else digitSearch rest

/-- `re.match(r"^(?:around|at|in)\b", val, re.IGNORECASE)` as a Bool. -/
def locKeywordStart (val : String) : Bool :=
  match locPrefixTail val.data with
  | some tail => afterNonWord tail
  | none => false

/-- The notes step of the new-dialect lens branch (Python local `e2` from `e1`). -/
def lensNoteStep (val : String) (e1 : FilmEntry) : FilmEntry :=
  if !looksLikeLens val then
    { e1 with notes := appendNoteIdiom e1.notes ("Lens (raw contained camera): " ++ val) }
  else e1

/-- The new-dialect "Lens:" branch. -/
def lensKV (val : String) (entry : FilmEntry) : FilmEntry :=
  match findKnownCameraInText val with
  | some cam_found =>
    { lensNoteStep val { entry with camera := cam_found } with lens := "" }
  | none => { entry with lens := val }

/-- The new-dialect "Camera:" branch. -/
def cameraKV (val : String) (entry : FilmEntry) : FilmEntry :=
  if locKeywordStart val then
    { entry with
      notes := appendNoteIdiom entry.notes ("Camera (raw -> location): " ++ val),
      shot_location := val,
      camera := "" }
  else
    match canonicalCamera val with
    | none =>
      { entry with
        notes := appendNoteIdiom entry.notes ("Camera (raw): " ++ val),
        camera := "Unknown" }
    | some cam_canon => { entry with camera := cam_canon }

/-- The keyed dispatch of `_parse_new_sub_entry`, taking the raw key, the
normalized key (Python local `key`) and the stripped value (Python local `val`). -/
def parseNewKV (raw_key key val : String) (entry : FilmEntry) : FilmEntry :=
  if key = "iso" then { entry with iso := val }
  else if key = "exposures" then
    match digitSearch val.data with
    | some d => { entry with exposures := String.mk d }
    | none => { entry with exposures := val }
  else if key = "expiration" then
    if val = "" || strContains (lowerStr val) "unknown" then
      noteAppendKV entry "Expiration" (if val = "" then "Unknown" else val)
    else { entry with expiration := normalizeDate val }
  else if key = "loaded date" then
    if val ≠ "" then
      match datePatternSearch val with
      | some d => { entry with loaded_date := normalizeDate d }
      | none => noteAppendKV entry "Loaded Date" val
    else entry
  else if key = "camera" then cameraKV val entry
  else if key = "lens" then lensKV val entry
  else if key = "filter" then { entry with filter := val }
  else if key = "notes" then { entry with notes := appendNoteIdiom entry.notes val }
  else if key = "subject" then { entry with subject := val }
  else if key = "shot location" then { entry with shot_location := val }
  else if key = "ready for development date" then
    if val ≠ "" then
      match datePatternSearch val with
      | some d => { entry with ready_date := normalizeDate d }
      | none => noteAppendKV entry "Ready for Development Date" val
    else entry
  else if key = "developed date" then
    if val ≠ "" then
      match datePatternSearch val with
      | some d => { entry with developed_date := normalizeDate d }
      | none => noteAppendKV entry "Developed Date" val
    else entry
  else if key = "developed location" then { entry with developed_location := val }
  else if key = "rollnum" || key = "roll num" || key = "roll number" then
    { entry with roll_num := val }
  else noteAppendKV entry (pyStrip raw_key) val

/-- Embedding of the body of `_parse_new_sub_entry` on the stripped content. -/
def parseNewContent (content : String) (entry : FilmEntry) : FilmEntry :=
  if !strContains content ":" then
    if startsWithStr (pyStrip (lowerStr content)) "at "
        || startsWithStr (pyStrip (lowerStr content)) "around "
        || startsWithStr (pyStrip (lowerStr content)) "in " then
      { entry with shot_location := pyStrip content }
    else { entry with notes := appendNoteIdiom entry.notes content }
  else
    match splitOnce content ":" with
    | none => entry
    | some p => parseNewKV p.1 (lowerStr (pyStrip p.1)) (pyStrip p.2) entry

/-- Embedding of `CatalogConverter._parse_new_sub_entry`. -/
def parseNewSubEntry (line : String) (entry : FilmEntry) : FilmEntry :=
  if pyStrip (String.mk (line.data.drop 6)) = "" then entry
  else parseNewContent (pyStrip (String.mk (line.data.drop 6))) entry

/-- Prefix `^\s{0,3}-\s+` of the top-level header regexes: at most 3 leading
whitespace characters, a dash, then at least one whitespace; returns the rest. -/
def afterBulletWs (cs : List Char) : Option (List Char) :=
  let lead := cs.takeWhile isPyWs
  if lead.length ≤ 3 then
    match cs.drop lead.length with
    | '-' :: r =>
      let ws := r.takeWhile isPyWs
      if ws.isEmpty then none else some (r.drop ws.length)
    | _ => none
  else none

/-- Prefix `^-\s+` of the mis-indented header regexes (applied to the stripped
line); returns the rest. -/
def afterDashWs (cs : List Char) : Option (List Char) :=
  match cs with
  | '-' :: r =>
    let ws := r.takeWhile isPyWs
    if ws.isEmpty then none else some (r.drop ws.length)
  | _ => none

/-- Group of `Filmstock:\s*(.+?)\s*$` given the text after the colon: the match
fails exactly when nothing follows the colon, and the group, after the caller's
`.strip()`, is the stripped remainder (the greedy `\s*`, lazy `(.+?)` and
trailing `\s*$` cooperate to trim both ends, leaving at most one whitespace
character that `.strip()` then removes). -/
def colonValGroup (afterColon : List Char) : Option String :=
  if afterColon.isEmpty then none else some (String.mk (stripL afterColon))

/-- Helper for `Filmstock\s+(.+?):\s*$`: shortest nonempty prefix of the list
that is followed by a colon whose suffix is all whitespace (the target colon is
unique when it exists). `acc` holds the reversed prefix scanned so far. -/
def lazyColonGroupAux (acc : List Char) : List Char → Option (List Char)
  | [] => none
  | c :: rest =>
    if c = ':' && !acc.isEmpty && rest.all isPyWs then some acc.reverse
    else lazyColonGroupAux (c :: acc) rest

/-- Backtracking over the greedy `\s+` of `Filmstock\s+(.+?):\s*$`: try taking
`w` whitespace characters for `w` from the maximum down to 1. -/
def tryWsColon (rest : List Char) : Nat → Option (List Char)
  | 0 => none
  | w + 1 =>
    match lazyColonGroupAux [] (rest.drop (w + 1)) with
    | some g => some g
    | none => tryWsColon rest w

/-- Group of `\s+(.+?):\s*$` given the text after the literal `Filmstock`,
already `.strip()`-ed as the callers do. -/
def filmstockSpacedColon (rest : List Char) : Option String :=
  (tryWsColon rest (rest.takeWhile isPyWs).length).map (fun g => String.mk (stripL g))

/-- `re.match(r"^\s{0,3}-\s+Filmstock:\s*", line)` or
`re.match(r"^\s{0,3}-\s+Filmstock\s+.+:\s*$", line)` — the new-format top-level
header detection (case-sensitive). -/
def topNewDetect (line : String) : Bool :=
  match afterBulletWs line.data with
  | some rest =>
    "Filmstock:".data.isPrefixOf rest
    || ("Filmstock".data.isPrefixOf rest
        && (filmstockSpacedColon (rest.drop 9)).isSome)
  | none => false

/-- `re.match(r"^\s{0,3}-\s+\d+x\s+", line, re.IGNORECASE)` — the old-format
top-level header detection. -/
def oldHeaderDetect (line : String) : Bool :=
  match afterBulletWs line.data with
  | some rest =>
    let ds := digitRun rest
    if ds.isEmpty then false
    else
      match rest.drop ds.length with
      | c :: w :: _ => c.toLower = 'x' && isPyWs w
      | _ => false
  | none => false

/-- The header value computed in the new-format top-level branch:
group of pattern A (`Filmstock:\s*(.+?)\s*$`, then `.strip().rstrip(":")`)
else group of pattern B (`Filmstock\s+(.+?):\s*$`, then `.strip()`), else `""`. -/
def newHeaderValFrom (rest : List Char) : String :=
  match (if "Filmstock:".data.isPrefixOf rest then colonValGroup (rest.drop 10)
         else none) with
  | some g => rstripColon g
  | none =>
    match (if "Filmstock".data.isPrefixOf rest then filmstockSpacedColon (rest.drop 9)
           else none) with
    | some g => g
    | none => ""

/-- `re.match(r"^(?P<qty>\d+x)\s+(?P<name>.+)$", val, re.IGNORECASE)`:
quantity group (digits plus the actual x character) and `.strip()`-ed name. -/
def qtySplitL (cs : List Char) : Option (String × String) :=
  let ds := digitRun cs
  if ds.isEmpty then none
  else
    match cs.drop ds.length with
    | c :: rest =>
      if c.toLower = 'x' then
        (wsGroupTail rest).map (fun name => (String.mk (ds ++ [c]), name))
      else none
    | [] => none

/-- Quantity split on a header value string. -/
def qtySplit (val : String) : Option (String × String) := qtySplitL val.data

/-- The entry started by a top-level new-format header line. -/
def newHeaderEntry (line : String) : FilmEntry :=
  let val :=
    match afterBulletWs line.data with
    | some rest => newHeaderValFrom rest
    | none => ""
  match qtySplit val with
  | some p => { quantity := p.1, filmstock := p.2 }
  | none => { filmstock := val }

/-- The entry started by a top-level old-format header line
(`^\s{0,3}-\s+(?P<qty>\d+x)\s+(?P<name>.+)$`, IGNORECASE; fields stay empty
when the extraction regex fails). -/
def oldHeaderEntry (line : String) : FilmEntry :=
  match (afterBulletWs line.data).bind qtySplitL with
  | some p => { quantity := p.1, filmstock := p.2 }
  | none => {}

/-- `re.match(r"^-\s+Filmstock\b", trimmed, re.IGNORECASE)` — mis-indented
new-format header detection. -/
def misNewDetect (trimmed : String) : Bool :=
  match afterDashWs trimmed.data with
  | some rest =>
    ciPrefixL ['f','i','l','m','s','t','o','c','k'] rest && afterNonWord (rest.drop 9)
  | none => false

/-- `re.match(r"^-\s+\d+x\b", trimmed, re.IGNORECASE)` — mis-indented old-format
header detection. -/
def misOldDetect (trimmed : String) : Bool :=
  match afterDashWs trimmed.data with
  | some rest =>
    let ds := digitRun rest
    if ds.isEmpty then false
    else
      match rest.drop ds.length with
      | c :: r => c.toLower = 'x' && afterNonWord r
      | [] => false
  | none => false

/-- The entry started by a mis-indented header (parsed from the stripped line;
the value extraction is case-sensitive for the new format, exactly as in the
source). -/
def misHeaderEntry (trimmed : String) : FilmEntry :=
  if misNewDetect trimmed then
    let val :=
      match afterDashWs trimmed.data with
      | some rest => newHeaderValFrom rest
      | none => ""
    match qtySplit val with
    | some p => { quantity := p.1, filmstock := p.2 }
    | none => { filmstock := val }
  else
    match (afterDashWs trimmed.data).bind qtySplitL with
    | some p => { quantity := p.1, filmstock := p.2 }
    | none => {}

/-- Parser state of `parse_entries`: flushed entries, the open entry, whether a
block is open (`in_subentries`) and its dialect (`current_is_new_format`). -/
structure PState where
  entries : List FilmEntry := []
  current : Option FilmEntry := none
  inSub : Bool := false
  isNew : Bool := false
deriving DecidableEq, Repr

/-- `flush_current`: append the open entry when it has filmstock, quantity or
notes content; the result is the new `entries` list. -/
def flushEntries (s : PState) : List FilmEntry :=
  match s.current with
  | some c =>
    if c.filmstock ≠ "" || c.quantity ≠ "" || c.notes ≠ "" then s.entries ++ [c]
    else s.entries
  | none => s.entries

/-- One iteration of the `parse_entries` main loop on one raw line (the Python
locals `line`, `trimmed` and `extra` are written out in place). -/
def processLine (s : PState) (raw : String) : PState :=
  if pyStrip (pyRstripNl raw) = "" then s
  else if topNewDetect (pyRstripNl raw) then
    { entries := flushEntries s, current := some (newHeaderEntry (pyRstripNl raw)),
      inSub := true, isNew := true }
  else if oldHeaderDetect (pyRstripNl raw) then
    { entries := flushEntries s, current := some (oldHeaderEntry (pyRstripNl raw)),
      inSub := true, isNew := false }
  else if startsWithStr (pyRstripNl raw) "    - " && s.current.isSome && s.inSub then
    if misNewDetect (pyStrip (pyRstripNl raw)) || misOldDetect (pyStrip (pyRstripNl raw)) then
      { entries := flushEntries s,
        current := some (misHeaderEntry (pyStrip (pyRstripNl raw))),
        inSub := true, isNew := misNewDetect (pyStrip (pyRstripNl raw)) }
    else
      { s with current := (s.current.map
          (fun c => if s.isNew then parseNewSubEntry (pyRstripNl raw) c
                    else parseOldSubEntry (pyRstripNl raw) c)) }
  else if s.current.isSome && s.inSub then
    if pyStrip (pyRstripNl raw) ≠ "" then
      { s with current := (s.current.map
          (fun c => if c.notes ≠ "" then
              { c with notes := c.notes ++ "; " ++ pyStrip (pyRstripNl raw) }
            else { c with notes := pyStrip (pyRstripNl raw) })) }
    else s
  else s

/-- Embedding of `CatalogConverter.parse_entries`. -/
def parseEntries (content : String) : List FilmEntry :=
  flushEntries ((pySplitlines content).foldl processLine {})

/-- Embedding of `CatalogConverter.count_input_entries`. -/
def countInputEntries (content : String) : Nat :=
  (pySplitlines content).foldl
    (fun count raw =>
      let line := pyRstripNl raw
      if (match afterBulletWs line.data with
          | some rest =>
            "Filmstock:".data.isPrefixOf rest
            || ("Filmstock".data.isPrefixOf rest
                && (filmstockSpacedColon (rest.drop 9)).isSome)
          | none => false) then count + 1
      else if oldHeaderDetect line then count + 1
      else count)
    0

/-- The rendered blocks of `convert_file`: one markdown block per finalized
entry, with an empty separator line between blocks. -/
def renderBlocks (entries : List FilmEntry) : List String :=
  (entries.map FilmEntry.toMarkdown).intersperse ""

/-- The core of `CatalogConverter.convert_file` (everything except file I/O):
count the raw headers, parse, finalize each entry, fail (`none`) on a count
mismatch, otherwise render. -/
def convertContent (content : String) : Option String :=
  let expected_count := countInputEntries content
  let entries0 := parseEntries content
  let entries := entries0.map finalizeEntry
  if expected_count ≠ entries0.length then none
  else
    let blocks := renderBlocks entries
    some (joinWithNl blocks ++ (if blocks.isEmpty then "" else "\n"))

/-- The guard of `_canonical_camera`'s SR-T101 family branch: the raw text is
nonempty, none of the earlier resolution rules (exact match, canonical-substring
match, N80 nickname, X-700 nickname) fires, and the text mentions the Minolta
brand together with an SR-T101 model hint. -/
def srt101FamilyCase (raw : String) : Bool :=
  let low := lowerStr (pyStrip raw)
  !(raw == "")
  && (KNOWN_CAMERAS.find? (fun cam => lowerStr cam == low)).isNone
  && (KNOWN_CAMERAS.find? (fun cam => isInfixL (lowerStr cam).data low.data)).isNone
  && !searchN80 none low.data
  && !(strContains low "x-700" || strContains low "x700")
  && strContains low "minolta"
  && ((strContains low "sr" && strContains low "t101")
      || strContains low "srt-101" || strContains low "srt101"
      || strContains low "sr-t101")

/-- The identifying pair of an entry used for order-preservation statements:
its quantity and filmstock. No sub-entry classifier ever modifies these two
fields, so they identify the header line an entry came from. -/
def entryKey (e : FilmEntry) : String × String := (e.quantity, e.filmstock)

/-- All entry keys present in a parser state: the flushed entries in order,
then the open entry. -/
def stateKeys (s : PState) : List (String × String) :=
  s.entries.map entryKey ++
    (match s.current with
     | some c => [entryKey c]
     | none => [])

/-- The key of the entry a raw line would start, were it treated as a header:
top-level new-format and old-format headers, and (state permitting) mis-indented
headers behind the 4-space sub-entry prefix. Lines that are no header give `[]`. -/
def headerKeyOf (raw : String) : List (String × String) :=
  if pyStrip (pyRstripNl raw) = "" then []
  else if topNewDetect (pyRstripNl raw) then [entryKey (newHeaderEntry (pyRstripNl raw))]
  else if oldHeaderDetect (pyRstripNl raw) then [entryKey (oldHeaderEntry (pyRstripNl raw))]
  else if startsWithStr (pyRstripNl raw) "    - "
      && (misNewDetect (pyStrip (pyRstripNl raw))
          || misOldDetect (pyStrip (pyRstripNl raw))) then
    [entryKey (misHeaderEntry (pyStrip (pyRstripNl raw)))]
  else []

/-- Keys of all (potential) header lines of a document, in input order. -/
def headerKeys (lines : List String) : List (String × String) :=
  lines.foldr (fun l acc => headerKeyOf l ++ acc) []

/-- Scenario A input (old unstructured dialect, from the spec and the module
self-tests). -/
def scenarioAInput : String :=
  "- 1x Fujifilm Fujicolor\n    - ISO 200\n    - 24 exposure\n    - loaded 01/23/23\n    - expiration unknown, likely expired\n    - ready to get developed as of 2/12/23\n"

/-- The entry Scenario A's block parses to. -/
def scenarioAEntry : FilmEntry :=
  { filmstock := "Fujifilm Fujicolor", iso := "200", exposures := "24",
    loaded_date := "2023-01-23", ready_date := "2023-02-12",
    notes := "Expiration info: unknown, likely expired", quantity := "1x" }

/-- Scenario B's old-dialect sub-entry line (with the 4-space sub-entry prefix). -/
def scenarioBLine : String :=
  "    - shot in black Minolta SR-T101 with 28mm f2.5 around SE Portland flowers"

/-- A document with one top-level old-format header and one mistakenly-indented
old-format header (which the Entry Segmenter promotes to a real entry). -/
def misIndentedDoc : String := "- 1x Foo\n    - 2x Bar\n"

/-- An old-dialect sub-entry line the `loaded` branch consumes without setting
any field or note. -/
def lostLoadedLine : String := "    - loaded tomorrow"

/-- Zero-padded decimal string of a two-digit year value YY. -/
def twoDigitYearStr (yy : Fin 100) : String :=
  (if yy.val < 10 then "0" else "") ++ toString yy.val

/-- The four-digit year `normalize_date` produces for a two-digit year:
20YY when YY is at most 30, else 19YY. -/
def expandedYearStr (yy : Fin 100) : String :=
  if yy.val ≤ 30 then "20" ++ twoDigitYearStr yy else "19" ++ twoDigitYearStr yy

/-- C1: on the Scenario B line, classification plus finalization does NOT
produce the claimed fields. The location regex of the `shot` branch finds the
leftmost preposition — the `in` that introduces the camera — so the whole tail
becomes the shot location, the camera is never extracted (ending as "Unknown"),
and the lens keeps the trailing location text. This contradicts the claim's
`camera = "Minolta SR-T101 black"`, `lens = "28mm f2.5"`,
`shot_location = "SE Portland flowers"`. -/
theorem c1_scenario_b_divergence :
    (finalizeEntry (parseOldSubEntry scenarioBLine {})).camera = "Unknown" ∧
    (finalizeEntry (parseOldSubEntry scenarioBLine {})).lens =
      "28mm f2.5 around SE Portland flowers" ∧
    (finalizeEntry (parseOldSubEntry scenarioBLine {})).shot_location =
      "black Minolta SR-T101 with 28mm f2.5 around SE Portland flowers" := by
  decide

/-- C2: the "independent scan" misses mistakenly-indented headers (its regexes
allow only 0-3 leading spaces while the sub-entry prefix is 4), although the
Entry Segmenter promotes such headers to real entries. On a document with one
top-level header and one mis-indented header the scan counts 1, the segmenter
produces 2 records, and the conversion fails — under the claim's reading of the
scan the counts would agree (2 = 2) and 2 blocks would be rendered. -/
theorem c2_count_invariant_divergence :
    countInputEntries misIndentedDoc = 1 ∧
    (parseEntries misIndentedDoc).length = 2 ∧
    convertContent misIndentedDoc = none := by
  decide

/-- C5: the old-dialect line "loaded tomorrow" is consumed by the `loaded`
branch, which finds no date, no " in " segment and no "on " segment, sets no
typed field, and appends nothing to notes: the content is silently lost,
contradicting the no-loss claim (and the module's own data-preservation
docstrings). -/
theorem c5_no_loss_divergence :
    parseOldSubEntry lostLoadedLine {} = ({} : FilmEntry) ∧
    strContains (parseOldSubEntry lostLoadedLine {}).notes "loaded tomorrow" = false := by
  decide

/-- C7: Scenario A parses to exactly one entry with quantity "1x", iso "200",
exposures "24", loaded date 2023-01-23, ready date 2023-02-12 and empty
expiration; the notes begin with "Expiration info:"; the rendered block shows
"Expiration: None" and the default "Developed Location: Citizens PDX". -/
theorem c7_scenario_a :
    parseEntries scenarioAInput = [scenarioAEntry] ∧
    scenarioAEntry.quantity = "1x" ∧
    scenarioAEntry.iso = "200" ∧
    scenarioAEntry.exposures = "24" ∧
    scenarioAEntry.loaded_date = "2023-01-23" ∧
    scenarioAEntry.ready_date = "2023-02-12" ∧
    scenarioAEntry.expiration = "" ∧
    startsWithStr scenarioAEntry.notes "Expiration info:" = true ∧
    scenarioAEntry.toMarkdownLines[3]? = some "    - Expiration: None" ∧
    scenarioAEntry.toMarkdownLines[13]? = some "    - Developed Location: Citizens PDX" := by
  decide

/-- C10: in `normalize_date`, a two-digit year YY expands to 20YY when its value
is at most 30 and to 19YY otherwise, uniformly in the M/D/YY, M/YY,
"Month D, YY" and "D Month YY" formats. -/
theorem c10_two_digit_year :
    ∀ yy : Fin 100,
      normalizeDate ("1/2/" ++ twoDigitYearStr yy) = expandedYearStr yy ++ "-01-02" ∧
      normalizeDate ("9/" ++ twoDigitYearStr yy) = expandedYearStr yy ++ "-09-01" ∧
      normalizeDate ("Apr 1, " ++ twoDigitYearStr yy) = expandedYearStr yy ++ "-04-01" ∧
      normalizeDate ("1 Apr " ++ twoDigitYearStr yy) = expandedYearStr yy ++ "-04-01" := by
  decide

/-- C4: the Camera Resolver maps bare "Minolta" to the silver SR-T101 variant
and "black Minolta SR-T101" to the black variant; and in its whole SR-T101
family branch (an SR-T101 hint plus the Minolta brand, no earlier rule firing)
it returns the black variant exactly when the finish keyword "black" occurs and
the silver variant otherwise. -/
theorem c4_camera_resolver :
    canonicalCamera "Minolta" = some "Minolta SR-T101 silver" ∧
    canonicalCamera "black Minolta SR-T101" = some "Minolta SR-T101 black" ∧
    ∀ raw : String, srt101FamilyCase raw = true →
      canonicalCamera raw =
        some (if strContains (lowerStr (pyStrip raw)) "black" then "Minolta SR-T101 black"
              else "Minolta SR-T101 silver") := by
  refine ⟨by decide, by decide, ?_⟩
  intro raw h
  simp only [srt101FamilyCase, Bool.and_eq_true, Bool.not_eq_true',
    Option.isNone_iff_eq_none, beq_eq_false_iff_ne, ne_eq, Bool.or_eq_true] at h
  obtain ⟨⟨⟨⟨⟨⟨hne, hexact⟩, hsub⟩, hn80⟩, hx700⟩, hminolta⟩, hhint⟩ := h
  have hh : ((strContains (lowerStr (pyStrip raw)) "sr"
        && strContains (lowerStr (pyStrip raw)) "t101")
      || strContains (lowerStr (pyStrip raw)) "srt-101"
      || strContains (lowerStr (pyStrip raw)) "srt101"
      || strContains (lowerStr (pyStrip raw)) "sr-t101") = true := by
    rcases hhint with ((⟨ha, hb⟩ | hc) | hd) | he
    · simp [ha, hb]
    · simp [hc]
    · simp [hd]
    · simp [he]
  simp only [canonicalCamera, if_neg hne, hexact, hsub, hn80, hx700, hminolta, hh,
    Bool.false_eq_true, if_false, Bool.true_and, Bool.and_true, if_true]
  simp [apply_ite some]

/-- Witness for the universally quantified part of `c4_camera_resolver`:
"Minolta SRT101" is in the SR-T101 family case with no finish keyword, and
resolves to the silver variant. -/
theorem c4_camera_resolver_witness :
    canonicalCamera "Minolta SRT101" = some "Minolta SR-T101 silver" := by
  have h := c4_camera_resolver.2.2 "Minolta SRT101" (by decide)
  exact h.trans (by decide)

/-- Every successful camera resolution returns a member of the canonical list. -/
theorem canonicalCamera_mem {raw c : String} (h : canonicalCamera raw = some c) :
    c ∈ KNOWN_CAMERAS := by
  simp only [canonicalCamera] at h
  repeat' split at h
  all_goals first
    | exact Option.noConfusion h
    | (injection h with h'
       subst h'
       first
         | exact List.mem_of_find?_eq_some (by assumption)
         | decide)

/-- Every successful camera-in-text search returns a member of the canonical list. -/
theorem findKnownCameraInText_mem {text c : String}
    (h : findKnownCameraInText text = some c) : c ∈ KNOWN_CAMERAS := by
  simp only [findKnownCameraInText] at h
  repeat' split at h
  all_goals first
    | exact Option.noConfusion h
    | (injection h with h'
       subst h'
       exact List.mem_of_find?_eq_some (by assumption))
    | exact canonicalCamera_mem h

/-- After the camera-canonicalization pass, the camera field is canonical or
"Unknown". -/
theorem cameraStep_canonical (e : FilmEntry) :
    (finalizeCameraStep e).camera = "Unknown"
    ∨ (finalizeCameraStep e).camera ∈ KNOWN_CAMERAS := by
  unfold finalizeCameraStep
  split
  · split
    · left; rfl
    · right; exact canonicalCamera_mem (by assumption)
  · split
    · next heq =>
      split at heq
      · right; exact findKnownCameraInText_mem heq
      · exact Option.noConfusion heq
    · left; rfl

/-- C3: for every entry that has passed the Finalizer, the camera field is one
of the five canonical camera identifiers or the literal "Unknown", and it is
never empty. -/
theorem c3_camera_canonical_or_unknown (e : FilmEntry) :
    ((finalizeEntry e).camera = "Unknown" ∨ (finalizeEntry e).camera ∈ KNOWN_CAMERAS)
    ∧ (finalizeEntry e).camera ≠ "" := by
  have h : (finalizeEntry e).camera = "Unknown"
      ∨ (finalizeEntry e).camera ∈ KNOWN_CAMERAS := cameraStep_canonical _
  refine ⟨h, ?_⟩
  rcases h with h | h
  · rw [h]; decide
  · have : ∀ c ∈ KNOWN_CAMERAS, c ≠ "" := by decide
    exact this _ h

theorem stripL_reverse (l : List Char) :
    (stripL l).reverse = ((l.dropWhile isPyWs).reverse).dropWhile isPyWs := by
  simp [stripL]

/-- The first character of a stripped nonempty list is not whitespace. -/
theorem stripL_head {l : List Char} {c : Char} {t : List Char}
    (h : stripL l = c :: t) : isPyWs c = false := by
  have hsuf : (stripL l).reverse <:+ (l.dropWhile isPyWs).reverse := by
    rw [stripL_reverse]
    exact List.dropWhile_suffix _
  have hpre : stripL l <+: l.dropWhile isPyWs := List.reverse_suffix.mp hsuf
  obtain ⟨r, hr⟩ := hpre
  rw [h] at hr
  have hw := List.head?_dropWhile_not isPyWs l
  rw [← hr] at hw
  simpa using hw

/-- The last character of a stripped nonempty list is not whitespace. -/
theorem stripL_last {l : List Char} {c : Char} {t : List Char}
    (h : (stripL l).reverse = c :: t) : isPyWs c = false := by
  rw [stripL_reverse] at h
  have hw := List.head?_dropWhile_not isPyWs ((l.dropWhile isPyWs).reverse)
  rw [h] at hw
  simpa using hw

/-- A trimmed list has no leading whitespace to drop. -/
theorem dropWhile_eq_self_of_stripped {l : List Char} (h : stripL l = l) :
    l.dropWhile isPyWs = l := by
  cases hl : l with
  | nil => simp
  | cons c t =>
    have hc : isPyWs c = false := stripL_head (by rw [h, hl])
    simp [List.dropWhile_cons, hc]

/-- A trimmed list has no trailing whitespace to drop (from its reverse). -/
theorem dropWhile_reverse_eq_self_of_stripped {l : List Char} (h : stripL l = l) :
    l.reverse.dropWhile isPyWs = l.reverse := by
  cases hl : l.reverse with
  | nil => simp
  | cons c t =>
    have hc : isPyWs c = false := stripL_last (by rw [h, hl])
    simp [List.dropWhile_cons, hc]

/-- Stripping ignores one leading whitespace character. -/
theorem stripL_cons_ws (l : List Char) : stripL (' ' :: l) = stripL l := by
  simp [stripL, List.dropWhile_cons, isPyWs]

/-- A string equal to its own strip stays unchanged with further stripping after
a single leading space (`" v".strip() = v` for trimmed `v`). -/
theorem pyStrip_space_cons {v : String} (hv : pyStrip v = v) :
    pyStrip (String.mk (' ' :: v.data)) = v := by
  have hd : stripL v.data = v.data := congrArg String.data hv
  calc pyStrip (String.mk (' ' :: v.data))
      = String.mk (stripL (' ' :: v.data)) := rfl
    _ = String.mk (stripL v.data) := by rw [stripL_cons_ws]
    _ = v := by rw [hd]

/-- C9: in the new dialect, a "Lens: V" line whose (trimmed, nonempty) value V
contains a resolvable camera sets `camera` to the canonical name and
unconditionally clears `lens` — even when V also looks lens-like — and in the
lens-like case nothing is appended to notes, so the original text V is recorded
nowhere. -/
theorem c9_new_lens_camera (e : FilmEntry) (v c : String)
    (hv : pyStrip v = v) (hne : v ≠ "") (hc : findKnownCameraInText v = some c) :
    (parseNewSubEntry ("    - Lens: " ++ v) e).camera = c ∧
    (parseNewSubEntry ("    - Lens: " ++ v) e).lens = "" ∧
    (looksLikeLens v = true → (parseNewSubEntry ("    - Lens: " ++ v) e).notes = e.notes) := by
  have hvdata : stripL v.data = v.data := congrArg String.data hv
  have hvne : v.data ≠ [] := by
    intro h0
    apply hne
    cases v with
    | mk d =>
      simp only at h0
      rw [h0]
  have hfront : List.dropWhile isPyWs ('L' :: 'e' :: 'n' :: 's' :: ':' :: ' ' :: v.data)
      = 'L' :: 'e' :: 'n' :: 's' :: ':' :: ' ' :: v.data := by
    rw [List.dropWhile_cons_of_neg]
    decide
  have hback : (('L' :: 'e' :: 'n' :: 's' :: ':' :: ' ' :: v.data).reverse).dropWhile isPyWs
      = ('L' :: 'e' :: 'n' :: 's' :: ':' :: ' ' :: v.data).reverse := by
    cases hr2 : v.data.reverse with
    | nil =>
      exact absurd (List.reverse_eq_nil_iff.mp hr2) hvne
    | cons c2 t2 =>
      have hc2 : isPyWs c2 = false := stripL_last (l := v.data) (by rw [hvdata, hr2])
      simp [hr2, List.dropWhile_cons, hc2]
  have hcontent : pyStrip (String.mk (("    - Lens: " ++ v).data.drop 6)) = "Lens: " ++ v := by
    show String.mk (stripL ('L' :: 'e' :: 'n' :: 's' :: ':' :: ' ' :: v.data)) = "Lens: " ++ v
    unfold stripL
    rw [hfront, hback, List.reverse_reverse]
    rfl
  have hnempty : ¬("Lens: " ++ v = "") := by
    intro h0
    have := congrArg String.data h0
    simp only at this
    exact List.noConfusion this
  have hcolon : strContains ("Lens: " ++ v) ":" = true := by
    show isInfixL [':'] ('L' :: 'e' :: 'n' :: 's' :: ':' :: ' ' :: v.data) = true
    simp [isInfixL, List.isPrefixOf]
  have hsplit : splitOnce ("Lens: " ++ v) ":" = some ("Lens", String.mk (' ' :: v.data)) := by
    show (splitOnceL [':'] ('L' :: 'e' :: 'n' :: 's' :: ':' :: ' ' :: v.data)).map
        (fun p => (String.mk p.1, String.mk p.2)) = _
    simp [splitOnceL, List.isPrefixOf]
  have hval : pyStrip (String.mk (' ' :: v.data)) = v := pyStrip_space_cons hv
  simp only [parseNewSubEntry, hcontent, if_neg hnempty, parseNewContent, hcolon,
    Bool.not_true, Bool.false_eq_true, if_false, hsplit, parseNewKV, hval]
  rw [show lowerStr (pyStrip "Lens") = "lens" from by decide]
  rw [if_neg (by decide : ¬("lens" = "iso")), if_neg (by decide : ¬("lens" = "exposures")),
    if_neg (by decide : ¬("lens" = "expiration")), if_neg (by decide : ¬("lens" = "loaded date")),
    if_neg (by decide : ¬("lens" = "camera")), if_pos rfl]
  simp only [lensKV, hc, lensNoteStep]
  cases hLL : looksLikeLens v <;> simp

/-- Witness for C9 at the concrete value "Nikon N80" and a blank entry. -/
theorem c9_new_lens_camera_witness :
    (pyStrip "Nikon N80" = "Nikon N80" ∧ "Nikon N80" ≠ ("" : String) ∧
      findKnownCameraInText "Nikon N80" = some "Nikon N80") ∧
    ((parseNewSubEntry ("    - Lens: " ++ "Nikon N80") ({} : FilmEntry)).camera = "Nikon N80" ∧
     (parseNewSubEntry ("    - Lens: " ++ "Nikon N80") ({} : FilmEntry)).lens = "" ∧
     (looksLikeLens "Nikon N80" = true →
       (parseNewSubEntry ("    - Lens: " ++ "Nikon N80") ({} : FilmEntry)).notes
         = ({} : FilmEntry).notes)) :=
  ⟨⟨by decide, by decide, by decide⟩,
   c9_new_lens_camera ({} : FilmEntry) "Nikon N80" "Nikon N80"
     (by decide) (by decide) (by decide)⟩

/-- A nonempty string has nonempty character data. -/
theorem data_ne_nil_of_ne_empty {s : String} (h : s ≠ "") : s.data ≠ [] := by
  intro h0
  apply h
  cases s with
  | mk d =>
    simp only at h0
    rw [h0]

/-- Stripping a list already trimmed on both ends leaves it unchanged. -/
theorem stripL_eq_self_of_ends {l : List Char}
    (hfront : l.dropWhile isPyWs = l)
    (hback : l.reverse.dropWhile isPyWs = l.reverse) :
    stripL l = l := by
  unfold stripL
  rw [hfront, hback, List.reverse_reverse]

/-- Python strip is idempotent. -/
theorem stripL_idem (l : List Char) : stripL (stripL l) = stripL l := by
  cases h : stripL l with
  | nil => rfl
  | cons c t =>
    rw [← h]
    apply stripL_eq_self_of_ends
    · have hc : isPyWs c = false := stripL_head h
      rw [h]
      simp [List.dropWhile_cons, hc]
    · cases h3 : (stripL l).reverse with
      | nil => simp [h] at h3
      | cons c2 t2 =>
        have hc2 : isPyWs c2 = false := stripL_last h3
        simp [List.dropWhile_cons, hc2]

/-- Joining two trimmed nonempty pieces with a single space is already trimmed. -/
theorem stripL_append_stripped {q f : List Char} (hq : stripL q = q) (hf : stripL f = f)
    (hqne : q ≠ []) (hfne : f ≠ []) : stripL (q ++ ' ' :: f) = q ++ ' ' :: f := by
  apply stripL_eq_self_of_ends
  · cases hq1 : q with
    | nil => exact absurd hq1 hqne
    | cons c t =>
      have hc : isPyWs c = false := stripL_head (by rw [hq, hq1])
      simp [hq1, List.cons_append, List.dropWhile_cons, hc]
  · cases hf1 : f.reverse with
    | nil => exact absurd (List.reverse_eq_nil_iff.mp hf1) hfne
    | cons c2 t2 =>
      have hc2 : isPyWs c2 = false := stripL_last (l := f) (by rw [hf, hf1])
      simp [hf1, List.dropWhile_cons, hc2]

/-- C6: rendering defaults. An empty developed location renders the line
"- Developed Location: Citizens PDX", and one already equal to "Citizens PDX"
renders that identical line (applying the default is idempotent); every other
empty field renders the literal "None"; and the Filmstock line is the trimmed
quantity and filmstock joined by one space, defaulting to "None" when both are
empty. -/
theorem c6_render_defaults (e : FilmEntry) :
    (e.developed_location = "" →
      e.toMarkdownLines[13]? = some "    - Developed Location: Citizens PDX") ∧
    (e.developed_location = "Citizens PDX" →
      e.toMarkdownLines[13]? = some "    - Developed Location: Citizens PDX") ∧
    (e.iso = "" → e.toMarkdownLines[1]? = some "    - ISO: None") ∧
    (e.exposures = "" → e.toMarkdownLines[2]? = some "    - Exposures: None") ∧
    (e.expiration = "" → e.toMarkdownLines[3]? = some "    - Expiration: None") ∧
    (e.loaded_date = "" → e.toMarkdownLines[4]? = some "    - Loaded Date: None") ∧
    (e.camera = "" → e.toMarkdownLines[5]? = some "    - Camera: None") ∧
    (e.lens = "" → e.toMarkdownLines[6]? = some "    - Lens: None") ∧
    (e.filter = "" → e.toMarkdownLines[7]? = some "    - Filter: None") ∧
    (e.notes = "" → e.toMarkdownLines[8]? = some "    - Notes: None") ∧
    (e.subject = "" → e.toMarkdownLines[9]? = some "    - Subject: None") ∧
    (e.shot_location = "" → e.toMarkdownLines[10]? = some "    - Shot Location: None") ∧
    (e.ready_date = "" →
      e.toMarkdownLines[11]? = some "    - Ready for Development Date: None") ∧
    (e.developed_date = "" → e.toMarkdownLines[12]? = some "    - Developed Date: None") ∧
    (e.roll_num = "" → e.toMarkdownLines[14]? = some "    - RollNum: None") ∧
    (pyStrip e.quantity = "" → pyStrip e.filmstock = "" →
      e.toMarkdownLines[0]? = some "- Filmstock: None") ∧
    (pyStrip e.quantity ≠ "" → pyStrip e.filmstock ≠ "" →
      e.toMarkdownLines[0]? =
        some ("- Filmstock: " ++ (pyStrip e.quantity ++ " " ++ pyStrip e.filmstock))) := by
  have hph : pyStrip "" = "" := rfl
  have hcit : pyStrip "Citizens PDX" = "Citizens PDX" := by decide
  refine ⟨?_, ?_, ?_, ?_, ?_, ?_, ?_, ?_, ?_, ?_, ?_, ?_, ?_, ?_, ?_, ?_, ?_⟩
  all_goals intro h1
  case _ => simp [FilmEntry.toMarkdownLines, h1, hph]
  case _ => simp [FilmEntry.toMarkdownLines, h1, hcit]
  case _ => simp [FilmEntry.toMarkdownLines, orDefault, h1, hph]
  case _ => simp [FilmEntry.toMarkdownLines, orDefault, h1, hph]
  case _ => simp [FilmEntry.toMarkdownLines, orDefault, h1, hph]
  case _ => simp [FilmEntry.toMarkdownLines, orDefault, h1, hph]
  case _ => simp [FilmEntry.toMarkdownLines, orDefault, h1, hph]
  case _ => simp [FilmEntry.toMarkdownLines, orDefault, h1, hph]
  case _ => simp [FilmEntry.toMarkdownLines, orDefault, h1, hph]
  case _ => simp [FilmEntry.toMarkdownLines, orDefault, h1, hph]
  case _ => simp [FilmEntry.toMarkdownLines, orDefault, h1, hph]
  case _ => simp [FilmEntry.toMarkdownLines, orDefault, h1, hph]
  case _ => simp [FilmEntry.toMarkdownLines, orDefault, h1, hph]
  case _ => simp [FilmEntry.toMarkdownLines, orDefault, h1, hph]
  case _ => simp [FilmEntry.toMarkdownLines, orDefault, h1, hph]
  case _ =>
    intro h2
    simp [FilmEntry.toMarkdownLines, filmstockDisplay, h1, h2, hph, joinWithSpace]
  case _ =>
    intro h2
    have hjoin : joinWithSpace
        (List.filter (fun s => !decide (s = "")) [pyStrip e.quantity, pyStrip e.filmstock])
        = pyStrip e.quantity ++ " " ++ pyStrip e.filmstock := by
      rw [List.filter_cons_of_pos (by simpa using h1),
          List.filter_cons_of_pos (by simpa using h2), List.filter_nil]
      rfl
    have hdata : (pyStrip e.quantity ++ " " ++ pyStrip e.filmstock).data
        = stripL e.quantity.data ++ ' ' :: stripL e.filmstock.data := by
      show (stripL e.quantity.data ++ [' ']) ++ stripL e.filmstock.data
          = stripL e.quantity.data ++ ' ' :: stripL e.filmstock.data
      simp
    have hstr : pyStrip (pyStrip e.quantity ++ " " ++ pyStrip e.filmstock)
        = pyStrip e.quantity ++ " " ++ pyStrip e.filmstock := by
      have hs := stripL_append_stripped (stripL_idem e.quantity.data)
        (stripL_idem e.filmstock.data)
        (fun h0 => data_ne_nil_of_ne_empty h1 h0)
        (fun h0 => data_ne_nil_of_ne_empty h2 h0)
      apply String.ext
      show stripL ((pyStrip e.quantity ++ " " ++ pyStrip e.filmstock).data)
          = (pyStrip e.quantity ++ " " ++ pyStrip e.filmstock).data
      rw [hdata, hs]
    have hne2 : pyStrip e.quantity ++ " " ++ pyStrip e.filmstock ≠ "" := by
      intro h0
      have hd := congrArg String.data h0
      rw [hdata] at hd
      simp at hd
    simp [FilmEntry.toMarkdownLines, filmstockDisplay, hjoin, hstr, hne2]

/-- Witness for `c6_render_defaults`: the implications instantiated at two
concrete entries (the default entry, and one with an explicit Citizens PDX
location and a nonempty quantity and filmstock). -/
theorem c6_render_defaults_witness :
    (FilmEntry.toMarkdownLines {})[13]? = some "    - Developed Location: Citizens PDX" ∧
    (FilmEntry.toMarkdownLines {})[1]? = some "    - ISO: None" ∧
    (FilmEntry.toMarkdownLines {})[0]? = some "- Filmstock: None" ∧
    (FilmEntry.toMarkdownLines
        { developed_location := "Citizens PDX", quantity := "1x", filmstock := "Foo" })[13]?
      = some "    - Developed Location: Citizens PDX" ∧
    (FilmEntry.toMarkdownLines
        { developed_location := "Citizens PDX", quantity := "1x", filmstock := "Foo" })[0]?
      = some "- Filmstock: 1x Foo" := by
  have h1 := c6_render_defaults {}
  have h2 := c6_render_defaults
    { developed_location := "Citizens PDX", quantity := "1x", filmstock := "Foo" }
  refine ⟨h1.1 rfl, h1.2.2.1 rfl, ?_, h2.2.1 rfl, ?_⟩
  · exact (h1.2.2.2.2.2.2.2.2.2.2.2.2.2.2.2.1) rfl rfl
  · exact ((h2.2.2.2.2.2.2.2.2.2.2.2.2.2.2.2.2) (by decide) (by decide)).trans (by decide)

theorem entryKey_expirationBranch (raw_val : String) (e : FilmEntry) :
    entryKey (expirationBranch raw_val e) = entryKey e := by
  unfold expirationBranch
  iterate 4 (all_goals try split)
  all_goals rfl

theorem entryKey_loadedBranch (loaded_text : String) (e : FilmEntry) :
    entryKey (loadedBranch loaded_text e) = entryKey e := by
  unfold loadedBranch loadedCameraStep loadedDateStep
  iterate 6 (all_goals try split)
  all_goals rfl

theorem entryKey_shotBranch (content shot_text : String) (e : FilmEntry) :
    entryKey (shotBranch content shot_text e) = entryKey e := by
  unfold shotBranch shotFallback shotWithStep shotLocStep
  iterate 8 (all_goals try split)
  all_goals rfl

theorem entryKey_developedBranch (dev_text : String) (e : FilmEntry) :
    entryKey (developedBranch dev_text e) = entryKey e := by
  unfold developedBranch developedDateStep
  iterate 5 (all_goals try split)
  all_goals rfl

theorem quantity_expirationBranch (v : String) (x : FilmEntry) :
    (expirationBranch v x).quantity = x.quantity :=
  congrArg Prod.fst (entryKey_expirationBranch v x)

theorem filmstock_expirationBranch (v : String) (x : FilmEntry) :
    (expirationBranch v x).filmstock = x.filmstock :=
  congrArg Prod.snd (entryKey_expirationBranch v x)

theorem quantity_loadedBranch (v : String) (x : FilmEntry) :
    (loadedBranch v x).quantity = x.quantity :=
  congrArg Prod.fst (entryKey_loadedBranch v x)

theorem filmstock_loadedBranch (v : String) (x : FilmEntry) :
    (loadedBranch v x).filmstock = x.filmstock :=
  congrArg Prod.snd (entryKey_loadedBranch v x)

theorem quantity_shotBranch (c v : String) (x : FilmEntry) :
    (shotBranch c v x).quantity = x.quantity :=
  congrArg Prod.fst (entryKey_shotBranch c v x)

theorem filmstock_shotBranch (c v : String) (x : FilmEntry) :
    (shotBranch c v x).filmstock = x.filmstock :=
  congrArg Prod.snd (entryKey_shotBranch c v x)

theorem quantity_developedBranch (v : String) (x : FilmEntry) :
    (developedBranch v x).quantity = x.quantity :=
  congrArg Prod.fst (entryKey_developedBranch v x)

theorem filmstock_developedBranch (v : String) (x : FilmEntry) :
    (developedBranch v x).filmstock = x.filmstock :=
  congrArg Prod.snd (entryKey_developedBranch v x)

theorem entryKey_parseOldSubEntryCore (content lcl : String) (e : FilmEntry) :
    entryKey (parseOldSubEntryCore content lcl e) = entryKey e := by
  have hq : (parseOldSubEntryCore content lcl e).quantity = e.quantity := by
    unfold parseOldSubEntryCore
    cases searchExposure none content.data <;>
      cases datePatternSearch content <;>
        cases splitOnce content ":" <;>
          simp [apply_ite FilmEntry.quantity, quantity_expirationBranch,
            quantity_loadedBranch, quantity_shotBranch, quantity_developedBranch]
  have hf : (parseOldSubEntryCore content lcl e).filmstock = e.filmstock := by
    unfold parseOldSubEntryCore
    cases searchExposure none content.data <;>
      cases datePatternSearch content <;>
        cases splitOnce content ":" <;>
          simp [apply_ite FilmEntry.filmstock, filmstock_expirationBranch,
            filmstock_loadedBranch, filmstock_shotBranch, filmstock_developedBranch]
  simp [entryKey, hq, hf]

/-- The old-dialect classifier never touches quantity or filmstock. -/
theorem entryKey_parseOldSubEntry (line : String) (e : FilmEntry) :
    entryKey (parseOldSubEntry line e) = entryKey e :=
  entryKey_parseOldSubEntryCore _ _ e

theorem entryKey_lensKV (val : String) (e : FilmEntry) :
    entryKey (lensKV val e) = entryKey e := by
  unfold lensKV lensNoteStep
  iterate 4 (all_goals try split)
  all_goals rfl

theorem entryKey_cameraKV (val : String) (e : FilmEntry) :
    entryKey (cameraKV val e) = entryKey e := by
  unfold cameraKV
  iterate 4 (all_goals try split)
  all_goals rfl

theorem entryKey_noteAppendKV (p v : String) (x : FilmEntry) :
    entryKey (noteAppendKV x p v) = entryKey x := by
  unfold noteAppendKV
  split
  all_goals rfl

theorem quantity_lensKV (v : String) (x : FilmEntry) :
    (lensKV v x).quantity = x.quantity :=
  congrArg Prod.fst (entryKey_lensKV v x)

theorem filmstock_lensKV (v : String) (x : FilmEntry) :
    (lensKV v x).filmstock = x.filmstock :=
  congrArg Prod.snd (entryKey_lensKV v x)

theorem quantity_cameraKV (v : String) (x : FilmEntry) :
    (cameraKV v x).quantity = x.quantity :=
  congrArg Prod.fst (entryKey_cameraKV v x)

theorem filmstock_cameraKV (v : String) (x : FilmEntry) :
    (cameraKV v x).filmstock = x.filmstock :=
  congrArg Prod.snd (entryKey_cameraKV v x)

theorem quantity_noteAppendKV (p v : String) (x : FilmEntry) :
    (noteAppendKV x p v).quantity = x.quantity :=
  congrArg Prod.fst (entryKey_noteAppendKV p v x)

theorem filmstock_noteAppendKV (p v : String) (x : FilmEntry) :
    (noteAppendKV x p v).filmstock = x.filmstock :=
  congrArg Prod.snd (entryKey_noteAppendKV p v x)

theorem entryKey_parseNewKV (raw_key key val : String) (e : FilmEntry) :
    entryKey (parseNewKV raw_key key val e) = entryKey e := by
  have hq : (parseNewKV raw_key key val e).quantity = e.quantity := by
    unfold parseNewKV
    cases digitSearch val.data <;>
      cases datePatternSearch val <;>
        simp [apply_ite FilmEntry.quantity, quantity_lensKV, quantity_cameraKV,
          quantity_noteAppendKV]
  have hf : (parseNewKV raw_key key val e).filmstock = e.filmstock := by
    unfold parseNewKV
    cases digitSearch val.data <;>
      cases datePatternSearch val <;>
        simp [apply_ite FilmEntry.filmstock, filmstock_lensKV, filmstock_cameraKV,
          filmstock_noteAppendKV]
  simp [entryKey, hq, hf]

theorem entryKey_parseNewContent (content : String) (e : FilmEntry) :
    entryKey (parseNewContent content e) = entryKey e := by
  unfold parseNewContent
  iterate 8 (all_goals try split)
  all_goals first
    | rfl
    | apply entryKey_parseNewKV

/-- The new-dialect classifier never touches quantity or filmstock. -/
theorem entryKey_parseNewSubEntry (line : String) (e : FilmEntry) :
    entryKey (parseNewSubEntry line e) = entryKey e := by
  unfold parseNewSubEntry
  split
  · rfl
  · apply entryKey_parseNewContent

/-- The Finalizer never touches quantity or filmstock. -/
theorem entryKey_finalizeEntry (e : FilmEntry) :
    entryKey (finalizeEntry e) = entryKey e := by
  have h1 : ∀ x : FilmEntry, entryKey (finalizeCameraStep x) = entryKey x := by
    intro x
    unfold finalizeCameraStep
    iterate 4 (all_goals try split)
    all_goals rfl
  have h2 : ∀ x : FilmEntry, entryKey (finalizeLensStep x) = entryKey x := by
    intro x
    unfold finalizeLensStep
    unfold_let
    iterate 4 (all_goals try split)
    all_goals rfl
  have h3 : ∀ x : FilmEntry, entryKey (finalizeLocationStep x) = entryKey x := by
    intro x
    unfold finalizeLocationStep
    unfold_let
    iterate 4 (all_goals try split)
    all_goals rfl
  unfold finalizeEntry
  rw [h1, h2, h3]

open List in
/-- Flushing keeps an in-order sub-list of the state's keys (the open entry is
appended exactly when it has content). -/
theorem flushEntries_keys_sublist (s : PState) :
    (flushEntries s).map entryKey <+ stateKeys s := by
  obtain ⟨E, c?, su, nf⟩ := s
  cases c? with
  | none => simp [flushEntries, stateKeys]
  | some c =>
    unfold flushEntries stateKeys
    simp only []
    split
    · simp only [List.map_append, List.map_cons, List.map_nil]
      exact List.Sublist.refl _
    · exact List.sublist_append_left _ _

open List in
/-- One parser step only appends (at most) the new header's key to the state's
keys, and never disturbs the keys already present. -/
theorem stateKeys_processLine (s : PState) (raw : String) :
    stateKeys (processLine s raw) <+ stateKeys s ++ headerKeyOf raw := by
  obtain ⟨E, c?, su, nf⟩ := s
  unfold processLine headerKeyOf
  by_cases h1 : pyStrip (pyRstripNl raw) = ""
  · rw [if_pos h1, if_pos h1, List.append_nil]
  · rw [if_neg h1, if_neg h1]
    by_cases h2 : topNewDetect (pyRstripNl raw) = true
    · rw [if_pos h2, if_pos h2]
      simp only [stateKeys]
      exact List.Sublist.append (flushEntries_keys_sublist ⟨E, c?, su, nf⟩)
        (List.Sublist.refl _)
    · rw [if_neg h2, if_neg h2]
      by_cases h3 : oldHeaderDetect (pyRstripNl raw) = true
      · rw [if_pos h3, if_pos h3]
        simp only [stateKeys]
        exact List.Sublist.append (flushEntries_keys_sublist ⟨E, c?, su, nf⟩)
          (List.Sublist.refl _)
      · rw [if_neg h3, if_neg h3]
        by_cases h4 : (startsWithStr (pyRstripNl raw) "    - "
            && (PState.mk E c? su nf).current.isSome && (PState.mk E c? su nf).inSub) = true
        · have hsw : startsWithStr (pyRstripNl raw) "    - " = true := by
            simp only [Bool.and_eq_true] at h4
            exact h4.1.1
          have hcs : c?.isSome = true := by
            simp only [Bool.and_eq_true] at h4
            exact h4.1.2
          rw [if_pos h4]
          by_cases h5 : (misNewDetect (pyStrip (pyRstripNl raw))
              || misOldDetect (pyStrip (pyRstripNl raw))) = true
          · rw [if_pos h5, if_pos (show (startsWithStr (pyRstripNl raw) "    - "
                && (misNewDetect (pyStrip (pyRstripNl raw))
                    || misOldDetect (pyStrip (pyRstripNl raw)))) = true from by
              rw [hsw, h5]; rfl)]
            simp only [stateKeys]
            exact List.Sublist.append (flushEntries_keys_sublist ⟨E, c?, su, nf⟩)
              (List.Sublist.refl _)
          · rw [if_neg h5, if_neg (show ¬((startsWithStr (pyRstripNl raw) "    - "
                && (misNewDetect (pyStrip (pyRstripNl raw))
                    || misOldDetect (pyStrip (pyRstripNl raw)))) = true) from by
              simp [h5])]
            cases c? with
            | none => simp at hcs
            | some c =>
              have hkey : entryKey (if nf = true
                  then parseNewSubEntry (pyRstripNl raw) c
                  else parseOldSubEntry (pyRstripNl raw) c) = entryKey c := by
                by_cases hn : nf = true
                · rw [if_pos hn]
                  exact entryKey_parseNewSubEntry _ _
                · rw [if_neg hn]
                  exact entryKey_parseOldSubEntry _ _
              simp only [stateKeys, Option.map_some, Option.map_some', List.append_nil]
              rw [hkey]
        · rw [if_neg h4]
          by_cases h6 : ((PState.mk E c? su nf).current.isSome
              && (PState.mk E c? su nf).inSub) = true
          · have hsw : startsWithStr (pyRstripNl raw) "    - " = false := by
              rcases hb : startsWithStr (pyRstripNl raw) "    - " with _ | _
              · rfl
              · exfalso
                apply h4
                simp only [hb, Bool.true_and]
                exact h6
            rw [if_pos h6,
              if_neg (show ¬((startsWithStr (pyRstripNl raw) "    - "
                && (misNewDetect (pyStrip (pyRstripNl raw))
                    || misOldDetect (pyStrip (pyRstripNl raw)))) = true) from by
              simp [hsw]), List.append_nil]
            have hcs : c?.isSome = true := by
              simp only [Bool.and_eq_true] at h6
              exact h6.1
            cases c? with
            | none => simp at hcs
            | some c =>
              rw [if_pos (show ¬(pyStrip (pyRstripNl raw) = "") from h1)]
              simp only [stateKeys, Option.map_some, Option.map_some', List.append_nil]
              have hkey : entryKey (if c.notes ≠ "" then
                  { c with notes := c.notes ++ "; " ++ pyStrip (pyRstripNl raw) }
                  else { c with notes := pyStrip (pyRstripNl raw) }) = entryKey c := by
                split <;> rfl
              rw [hkey]
          · rw [if_neg h6]
            by_cases h7 : (startsWithStr (pyRstripNl raw) "    - "
                && (misNewDetect (pyStrip (pyRstripNl raw))
                    || misOldDetect (pyStrip (pyRstripNl raw)))) = true
            · rw [if_pos h7]
              exact List.sublist_append_left _ _
            · rw [if_neg h7, List.append_nil]

open List in
/-- Processing any list of lines only ever appends keys of later headers. -/
theorem processLines_keys_sublist (ls : List String) (s : PState) :
    stateKeys (ls.foldl processLine s) <+ stateKeys s ++ headerKeys ls := by
  induction ls generalizing s with
  | nil =>
    simp only [List.foldl_nil, headerKeys, List.foldr_nil, List.append_nil]
    exact List.Sublist.refl _
  | cons l ls ih =>
    calc stateKeys ((l :: ls).foldl processLine s)
        = stateKeys (ls.foldl processLine (processLine s l)) := rfl
      _ <+ stateKeys (processLine s l) ++ headerKeys ls := ih _
      _ <+ (stateKeys s ++ headerKeyOf l) ++ headerKeys ls :=
        List.Sublist.append (stateKeys_processLine s l) (List.Sublist.refl _)
      _ = stateKeys s ++ (headerKeyOf l ++ headerKeys ls) := by rw [List.append_assoc]
      _ = stateKeys s ++ headerKeys (l :: ls) := rfl

open List in
/-- C8: order preservation. The (quantity, filmstock) keys of the parsed entries
form an in-order sub-list of the keys of the header lines of the raw input (so
no entry is ever reordered); the Finalizer preserves every key (so the rendered
output keeps that order); and duplicate headers yield duplicate entries (no
deduplication). -/
theorem c8_order_preservation :
    (∀ content : String,
      ((parseEntries content).map entryKey) <+ headerKeys (pySplitlines content)) ∧
    (∀ content : String,
      ((parseEntries content).map finalizeEntry).map entryKey
        = (parseEntries content).map entryKey) ∧
    (parseEntries "- 1x A\n\n- 1x A\n").map entryKey = [("1x", "A"), ("1x", "A")] := by
  refine ⟨?_, ?_, by decide⟩
  · intro content
    have h1 : (parseEntries content).map entryKey
        <+ stateKeys ((pySplitlines content).foldl processLine {}) :=
      flushEntries_keys_sublist _
    have h2 := processLines_keys_sublist (pySplitlines content) {}
    have h3 : stateKeys ({} : PState) = [] := rfl
    rw [h3] at h2
    simpa using h1.trans h2
  · intro content
    rw [List.map_map]
    apply List.map_congr_left
    intro e _
    exact entryKey_finalizeEntry e

end Exifizer
